import Mathlib

/-!
Verification of the cloud-side analytics engine of GreenRoofingSENS
(`azure/function_app.py`): `compute_analytics`, `detect_anomalies`,
`compute_insights`, `compute_advanced_analytics` and their helpers.

Embedding conventions:
* Python floats are modelled as exact rationals (`ℚ`); timestamps as rational
  seconds on a global axis, so `strftime("%Y-%m-%d")` day grouping becomes
  `⌊t/86400⌋` and `"%Y-%m-%d %H:00"` hour grouping becomes `⌊t/3600⌋`,
  and string-sorting of those keys is integer order.
* A sensor field that is absent from a row, or stored as null, is `none`.
* `statistics.stdev` is a square root, which has no exact rational value, so
  every comparison the source makes against `stdev` is embedded by the
  equivalent squared comparison on the sample variance (both comparands are
  nonnegative, so squaring is an exact translation; the theorems below state
  the original `Real.sqrt` forms and prove them from the squared embedding).
  Record fields that the source fills with a rounded `stdev`/`z_score` store
  the corresponding squared quantity instead.
* Human-readable `message` strings built from interpolated floats are not
  modelled (no claim concerns them); all other output fields are.
-/

/-- Python `round` to an integer: round-half-to-even (banker's rounding). -/
def pyRoundInt (x : ℚ) : ℤ :=
  let f := ⌊x⌋
  let r := x - f
  if r < 1/2 then f
  else if 1/2 < r then f + 1
  else if 2 ∣ f then f else f + 1

/-- Python `round(x, n)`. -/
def pyRound (x : ℚ) (n : ℕ) : ℚ := (pyRoundInt (x * 10 ^ n) : ℚ) / 10 ^ n

/-- Python `int(x)`: truncation toward zero. -/
def pyInt (x : ℚ) : ℤ := if 0 ≤ x then ⌊x⌋ else -⌊-x⌋

/-- `statistics.mean` (division by zero yields `0`, a case the source guards). -/
def listMean (l : List ℚ) : ℚ := l.sum / l.length

/-- Sum of squared deviations from the mean. -/
def devSq (l : List ℚ) : ℚ := (l.map (fun x => (x - listMean l) ^ 2)).sum

/-- Square of `statistics.stdev` (sample variance, `n-1` divisor). -/
def sampleVar (l : List ℚ) : ℚ := devSq l / ((l.length : ℚ) - 1)

/-- Python `l[-n:]`. -/
def lastN (n : ℕ) (l : List α) : List α := l.drop (l.length - n)

/-- The `"DateTime"` string of a stored row, abstracted: the row may lack the
key (or hold an empty string), hold a string `datetime.fromisoformat` rejects,
or hold a parseable instant. -/
inductive DTField
  | missing
  | unparseable
  | valid (t : ℚ)
deriving DecidableEq

/-- One stored sensor row (an Azure table entity), restricted to the keys the
analytics engine reads. -/
structure Entity where
  soilTemp : Option ℚ      -- "SoilTemp_C"
  soilMoisture : Option ℚ  -- "SoilMoisture_Percent"
  irTemp : Option ℚ        -- "IR_Temp_C"
  rainfall : Option ℚ      -- "Rainfall_Hourly_mm"
  dateTime : DTField       -- "DateTime"
deriving DecidableEq

/-- The three fields monitored by the anomaly detector. -/
inductive SensorField
  | soilTemp
  | soilMoisture
  | irTemp
deriving DecidableEq

def SensorField.name : SensorField → String
  | .soilTemp => "Soil Temperature"
  | .soilMoisture => "Soil Moisture"
  | .irTemp => "IR Temperature"

def SensorField.unit : SensorField → String
  | .soilTemp => "°C"
  | .soilMoisture => "%"
  | .irTemp => "°C"

def fieldVal : SensorField → Entity → Option ℚ
  | .soilTemp, e => e.soilTemp
  | .soilMoisture, e => e.soilMoisture
  | .irTemp, e => e.irTemp

def allFields : List SensorField := [.soilTemp, .soilMoisture, .irTemp]

/-- `[e.get(F, 0) for e in entities if e.get(F)]`: Python truthiness keeps a
value only when it is present, non-null and nonzero. -/
def truthyVals (g : Entity → Option ℚ) (es : List Entity) : List ℚ :=
  es.filterMap (fun e => (g e).bind (fun v => if v = 0 then none else some v))

def soilTempsOf (es : List Entity) : List ℚ := truthyVals (·.soilTemp) es

def soilMoisturesOf (es : List Entity) : List ℚ := truthyVals (·.soilMoisture) es

def irTempsOf (es : List Entity) : List ℚ := truthyVals (·.irTemp) es

/-- `[e.get("Rainfall_Hourly_mm", 0) for e in entities
     if e.get("Rainfall_Hourly_mm") is not None]`: only null is dropped,
a stored `0.0` is kept. -/
def rainfallOf (es : List Entity) : List ℚ := es.filterMap (·.rainfall)

/-- One per-field summary of `safe_stats`; `stdSq` stores the square of the
reported standard deviation (see the header note). -/
structure StatSummary where
  avg : ℚ
  min : ℚ
  max : ℚ
  stdSq : ℚ
  trend : String
deriving DecidableEq

def zeroSummary : StatSummary :=
  { avg := 0, min := 0, max := 0, stdSq := 0, trend := "stable" }

/-- The trend branch of `safe_stats`.  The source compares
`diff = mean(values[mid:]) - mean(values[:mid])` against `± std * 0.5`;
`diff > std * 0.5` is embedded as `0 < diff ∧ var < 4 * diff²` and
`diff < -std * 0.5` as `diff < 0 ∧ var < 4 * diff²`. -/
def trendOf (values : List ℚ) : String :=
  let mid := values.length / 2
  if 0 < mid then
    let d := listMean (values.drop mid) - listMean (values.take mid)
    if 0 < d ∧ sampleVar values < 4 * d ^ 2 then "rising"
    else if d < 0 ∧ sampleVar values < 4 * d ^ 2 then "falling"
    else "stable"
  else "stable"

/-- `safe_stats` from `compute_analytics`. -/
def safeStats (values : List ℚ) : StatSummary :=
  if values.length < 2 then zeroSummary
  else
    { avg := pyRound (listMean values) 2
      min := pyRound ((values.min?).getD 0) 2
      max := pyRound ((values.max?).getD 0) 2
      stdSq := sampleVar values
      trend := trendOf values }

/-- The rainfall block of `compute_analytics`. -/
structure RainSummary where
  total : ℚ
  avg : ℚ
  max : ℚ
  rainy : ℕ
deriving DecidableEq

def rainStats (l : List ℚ) : RainSummary :=
  { total := pyRound l.sum 2
    avg := if l = [] then 0 else pyRound (listMean l) 2
    max := if l = [] then 0 else pyRound ((l.max?).getD 0) 2
    rainy := (l.filter (fun r => 0 < r)).length }

structure Analytics where
  soil_temp : StatSummary
  soil_moisture : StatSummary
  ir_temp : StatSummary
  rainfall : RainSummary
deriving DecidableEq

/-- `compute_analytics`. -/
def computeAnalytics (es : List Entity) : Option Analytics :=
  if es.length < 2 then none
  else some
    { soil_temp := safeStats (soilTempsOf es)
      soil_moisture := safeStats (soilMoisturesOf es)
      ir_temp := safeStats (irTempsOf es)
      rainfall := rainStats (rainfallOf es) }

example : safeStats [1, 1, 5, 5] =
    { avg := 3, min := 1, max := 5, stdSq := 16/3, trend := "rising" } := by
  norm_num [safeStats, zeroSummary, trendOf, listMean, sampleVar, devSq, pyRound, pyRoundInt]

example : rainStats [0, 2, 0] = { total := 2, avg := 67/100, max := 2, rainy := 1 } := by
  norm_num [rainStats, listMean, pyRound, pyRoundInt]
  simp

/-- A z-score anomaly record of `detect_anomalies`.  `zSq` stores the square
of the reported `z_score` (see the header note). -/
structure ZAnomaly where
  sensor : String
  value : ℚ
  unit : String
  avg : ℚ
  zSq : ℚ
  direction : String
  severity : String
deriving DecidableEq

/-- A sudden-change anomaly record of `detect_anomalies`. -/
structure ChangeAnomaly where
  sensor : String
  value : ℚ
  unit : String
  prev_value : ℚ
  pct_change : ℚ
  severity : String
deriving DecidableEq

/-- `[e.get(F, 0) for e in entities if e.get(F) is not None]`: the z-score
window for one field (null dropped, `0.0` kept). -/
def fieldValues (f : SensorField) (es : List Entity) : List ℚ :=
  es.filterMap (fieldVal f)

/-- `entities[i].get(F, 0)`. -/
def entryVal (f : SensorField) (es : List Entity) (i : ℕ) : ℚ :=
  (((es.drop i).head?).bind (fieldVal f)).getD 0

/-- One iteration of the z-score loop of `detect_anomalies` (the loop appends
at most one record per field).  `z_score > threshold` (threshold `2.5`) is
embedded as `25 * var < 4 * d²` and `z_score < 3` as `d² < 9 * var`
(squared forms, see the header note); `std == 0` is `var = 0`. -/
def zAnomalyFor (es : List Entity) (f : SensorField) : Option ZAnomaly :=
  let values := fieldValues f es
  if values.length < 5 then none
  else
    let avg := listMean values
    let var := sampleVar values
    if var = 0 then none
    else
      let latest := entryVal f es 0
      let d := latest - avg
      if 25 * var < 4 * d ^ 2 then
        some { sensor := f.name
               value := pyRound latest 1
               unit := f.unit
               avg := pyRound avg 1
               zSq := d ^ 2 / var
               direction := if avg < latest then "high" else "low"
               severity := if d ^ 2 < 9 * var then "warning" else "critical" }
      else none

/-- One iteration of the sudden-change loop of `detect_anomalies`. -/
def changeFor (es : List Entity) (f : SensorField) : Option ChangeAnomaly :=
  let curr := entryVal f es 0
  let prev := entryVal f es 1
  if prev ≠ 0 then
    let pct := |curr - prev| / |prev| * 100
    if 20 < pct then
      some { sensor := f.name
             value := pyRound curr 1
             unit := f.unit
             prev_value := pyRound prev 1
             pct_change := pyRound pct 1
             severity := "info" }
    else none
  else none

/-- `detect_anomalies`; the single Python list is split into its z-score
records followed by its sudden-change records. -/
def detectAnomalies (es : List Entity) : List ZAnomaly × List ChangeAnomaly :=
  if es.length < 5 then ([], [])
  else
    (allFields.filterMap (zAnomalyFor es),
     if 2 ≤ es.length then allFields.filterMap (changeFor es) else [])

/-- An advisory of `compute_insights` (type and title; the interpolated
`message`/`icon` strings are not modelled). -/
structure Insight where
  itype : String
  title : String
deriving DecidableEq

/-- `compute_insights`. -/
def computeInsights (es : List Entity) (a? : Option Analytics) : List Insight :=
  match a? with
  | none => []
  | some a =>
    if es = [] then []
    else
      (if a.soil_moisture.avg < 30 then [⟨"warning", "Low Soil Moisture"⟩]
       else if 70 < a.soil_moisture.avg then [⟨"info", "High Soil Moisture"⟩]
       else [])
      ++ (if 5 < a.ir_temp.avg - a.soil_temp.avg then [⟨"warning", "Possible Heat Stress"⟩]
          else if a.ir_temp.avg - a.soil_temp.avg < -3 then [⟨"info", "Cool Canopy"⟩]
          else [])
      ++ (if a.soil_temp.trend = "rising" then [⟨"info", "Temperature Rising"⟩]
          else if a.soil_temp.trend = "falling" then [⟨"info", "Temperature Falling"⟩]
          else [])
      ++ (if 10 < a.rainfall.total then [⟨"info", "Significant Rainfall"⟩] else [])

/-- One element of `data_points` in `compute_advanced_analytics`
(`e.get(F, 0)` defaults a missing/null field to `0`). -/
structure Point where
  dt : ℚ
  soil_temp : ℚ
  soil_moisture : ℚ
  ir_temp : ℚ
  rainfall : ℚ
deriving DecidableEq, Inhabited

/-- The body of the extraction loop of `compute_advanced_analytics`: a row
with no (or empty) `"DateTime"` string is skipped entirely (`if dt_str:`); a
row whose string `fromisoformat` rejects falls back to `datetime.now()`, the
wall clock at call time, passed here as `now`. -/
def pointOf (now : ℚ) (e : Entity) : Option Point :=
  match e.dateTime with
  | .missing => none
  | .unparseable =>
      some { dt := now, soil_temp := e.soilTemp.getD 0
             soil_moisture := e.soilMoisture.getD 0
             ir_temp := e.irTemp.getD 0, rainfall := e.rainfall.getD 0 }
  | .valid t =>
      some { dt := t, soil_temp := e.soilTemp.getD 0
             soil_moisture := e.soilMoisture.getD 0
             ir_temp := e.irTemp.getD 0, rainfall := e.rainfall.getD 0 }

def toPoints (now : ℚ) (es : List Entity) : List Point := es.filterMap (pointOf now)

/-- `data_points.sort(key=lambda x: x["datetime"])`; Python's sort is stable,
as is `mergeSort`. -/
def sortPoints (pts : List Point) : List Point :=
  pts.mergeSort (fun a b => decide (a.dt ≤ b.dt))

/-- Association-list lookup: the dictionaries of `compute_advanced_analytics`
are modelled as insertion-ordered key/values lists. -/
def alookup (key : ℤ) : List (ℤ × List ℚ) → Option (List ℚ)
  | [] => none
  | kv :: rest => if kv.1 = key then some kv.2 else alookup key rest

/-- `d.setdefault(key, []).append(v)` on the dictionary model. -/
def addKey (key : ℤ) (v : ℚ) (acc : List (ℤ × List ℚ)) : List (ℤ × List ℚ) :=
  match alookup key acc with
  | some _ => acc.map (fun kv => if kv.1 = key then (kv.1, kv.2 ++ [v]) else kv)
  | none => acc ++ [(key, [v])]

/-- The grouping loops of `compute_advanced_analytics` (`hourly` / `daily_gdd`). -/
def groupByKey (keyf : Point → ℤ) (vf : Point → ℚ) (pts : List Point) :
    List (ℤ × List ℚ) :=
  pts.foldl (fun acc p => addKey (keyf p) (vf p) acc) []

/-- `sorted(d.keys())`: the keys model `strftime` strings whose string order
is chronological order, i.e. integer order. -/
def sortedKeys (g : List (ℤ × List ℚ)) : List ℤ :=
  (g.map Prod.fst).mergeSort (fun a b => decide (a ≤ b))

def hourKey (t : ℚ) : ℤ := ⌊t / 3600⌋

def dayKey (t : ℚ) : ℤ := ⌊t / 86400⌋

structure HourStat where
  hour : ℤ
  avg : ℚ
  min : ℚ
  max : ℚ
  count : ℕ
deriving DecidableEq

/-- `calculate_hourly_stats`. -/
def calculateHourlyStats (pts : List Point) (vf : Point → ℚ) : List HourStat :=
  let hourly := groupByKey (fun p => hourKey p.dt) vf pts
  lastN 12 ((sortedKeys hourly).map (fun k =>
    let values := (alookup k hourly).getD []
    { hour := k
      avg := pyRound (listMean values) 2
      min := pyRound ((values.min?).getD 0) 2
      max := pyRound ((values.max?).getD 0) 2
      count := values.length }))

def moistureValues (pts : List Point) : List ℚ := pts.map (·.soil_moisture)

/-- `moisture_values[-1] if moisture_values else 0`. -/
def currentMoisture (pts : List Point) : ℚ := ((moistureValues pts).getLast?).getD 0

/-- The depletion-rate block (`moisture_values` and `data_points` always have
the same length, so the source's two length tests collapse to one). -/
def depletionRate (pts : List Point) : ℚ :=
  if 2 ≤ pts.length then
    let timeDiff := (((pts.getLast?).getD default).dt - ((pts.head?).getD default).dt) / 3600
    if 0 < timeDiff then
      (((moistureValues pts).getLast?).getD 0 - ((moistureValues pts).head?).getD 0) / timeDiff
    else 0
  else 0

def wateringRecAux (moisture rate : ℚ) : String :=
  if rate < -0.5 then "Monitor closely - moisture depleting quickly"
  else if 70 < moisture then "No watering needed - soil is well saturated"
  else "Moisture levels adequate - continue monitoring"

/-- `get_watering_recommendation` (the trailing three branches of the Python
`elif` chain are shared between the `None` and `≥ 24h` cases via
`wateringRecAux`). -/
def getWateringRecommendation (moisture rate : ℚ) (hours : Option ℚ) : String :=
  if moisture ≤ 20 then "Water immediately - soil is critically dry"
  else if moisture ≤ 30 then "Water soon - soil moisture is low"
  else
    match hours with
    | some h =>
      if h < 12 then "Plan to water within " ++ toString (pyInt h) ++ " hours"
      else if h < 24 then "Water within the next day"
      else wateringRecAux moisture rate
    | none => wateringRecAux moisture rate

structure PredWatering where
  current_moisture : ℚ
  depletion_rate : ℚ
  hours_until_critical : Option ℚ
  watering_urgency : String
  recommendation : String
deriving DecidableEq

/-- The predictive-watering block (`critical_threshold = 30`).  The pair `hu`
holds the unrounded `hours_until_critical` and the urgency; the output field
embeds `round(hours_until_critical, 1) if hours_until_critical else None`,
whose Python truthiness test maps both `None` and `0` to `None`. -/
def predictiveWatering (pts : List Point) : PredWatering :=
  let cur := currentMoisture pts
  let rate := depletionRate pts
  let hu : Option ℚ × String :=
    if rate < 0 ∧ 30 < cur then
      let h := (cur - 30) / |rate|
      if 168 < h then (none, "low")
      else if h < 6 then (some h, "critical")
      else if h < 24 then (some h, "high")
      else if h < 48 then (some h, "medium")
      else (some h, "low")
    else if cur ≤ 30 then (some 0, "critical")
    else (none, "low")
  { current_moisture := pyRound cur 1
    depletion_rate := pyRound rate 3
    hours_until_critical := hu.1.bind (fun h => if h = 0 then none else some (pyRound h 1))
    watering_urgency := hu.2
    recommendation := getWateringRecommendation cur rate hu.1 }

structure HeatEvent where
  dt : ℚ
  leaf_temp : ℚ
  soil_temp : ℚ
  difference : ℚ
  severity : String
deriving DecidableEq

def heatStressEvents (pts : List Point) : List HeatEvent :=
  pts.filterMap (fun p =>
    let d := p.ir_temp - p.soil_temp
    if 5 < d then
      some { dt := p.dt, leaf_temp := pyRound p.ir_temp 1
             soil_temp := pyRound p.soil_temp 1, difference := pyRound d 1
             severity := if 10 < d then "severe" else if 7 < d then "moderate" else "mild" }
    else none)

structure HeatStress where
  current_status : String
  current_leaf_temp : ℚ
  current_soil_temp : ℚ
  current_difference : ℚ
  stress_events_count : ℕ
  recent_events : List HeatEvent
deriving DecidableEq

/-- The heat-stress block of `compute_advanced_analytics`. -/
def heatStress (pts : List Point) : HeatStress :=
  let evs := heatStressEvents pts
  match pts.getLast? with
  | some latest =>
    let d := latest.ir_temp - latest.soil_temp
    { current_status :=
        if 10 < d then "severe"
        else if 7 < d then "moderate"
        else if 5 < d then "mild"
        else if d < -3 then "cool_canopy"
        else "normal"
      current_leaf_temp := pyRound latest.ir_temp 1
      current_soil_temp := pyRound latest.soil_temp 1
      current_difference := pyRound d 1
      stress_events_count := evs.length
      recent_events := lastN 5 evs }
  | none =>
    { current_status := "unknown", current_leaf_temp := 0, current_soil_temp := 0
      current_difference := 0, stress_events_count := evs.length
      recent_events := lastN 5 evs }

structure GddEntry where
  date : ℤ
  avg_temp : ℚ
  gdd : ℚ
  cumulative_gdd : ℚ
deriving DecidableEq

/-- One iteration of the GDD accumulation loop (`base_temp = 10.0`); the state
is `(total_gdd, gdd_by_day)`. -/
def gddStep (g : List (ℤ × List ℚ)) (st : ℚ × List GddEntry) (k : ℤ) :
    ℚ × List GddEntry :=
  let temps := (alookup k g).getD []
  if temps = [] then st
  else
    let avg := listMean temps
    let d := max 0 (avg - 10)
    (st.1 + d,
     st.2 ++ [{ date := k, avg_temp := pyRound avg 1, gdd := pyRound d 1
                cumulative_gdd := pyRound (st.1 + d) 1 }])

def gddFold (pts : List Point) : ℚ × List GddEntry :=
  let g := groupByKey (fun p => dayKey p.dt) (·.soil_temp) pts
  (sortedKeys g).foldl (gddStep g) (0, [])

def totalGdd (pts : List Point) : ℚ := (gddFold pts).1

def gddByDay (pts : List Point) : List GddEntry := (gddFold pts).2

structure GrowthStage where
  stage : String
  description : String
  progress : ℤ
deriving DecidableEq

/-- `estimate_growth_stage`. -/
def estimateGrowthStage (gdd : ℚ) : GrowthStage :=
  if gdd < 50 then
    { stage := "Dormant/Early", description := "Seeds germinating or early growth"
      progress := min 100 (pyInt (gdd / 50 * 100)) }
  else if gdd < 150 then
    { stage := "Vegetative", description := "Active leaf and stem growth"
      progress := min 100 (pyInt ((gdd - 50) / 100 * 100)) }
  else if gdd < 300 then
    { stage := "Development", description := "Plant establishing structure"
      progress := min 100 (pyInt ((gdd - 150) / 150 * 100)) }
  else if gdd < 500 then
    { stage := "Mature", description := "Full growth achieved"
      progress := min 100 (pyInt ((gdd - 300) / 200 * 100)) }
  else
    { stage := "Peak/Harvest", description := "Optimal maturity", progress := 100 }

structure TrendAnalysis where
  soil_temp_hourly : List HourStat
  moisture_hourly : List HourStat
  ir_temp_hourly : List HourStat
deriving DecidableEq

structure GddReport where
  base_temperature : ℚ
  total_gdd : ℚ
  daily_gdd : List GddEntry
  growth_stage_estimate : GrowthStage
deriving DecidableEq

structure AdvReport where
  trend_analysis : TrendAnalysis
  predictive_watering : PredWatering
  heat_stress : HeatStress
  growing_degree_days : GddReport
deriving DecidableEq

/-- `compute_advanced_analytics`.  `now` is the wall clock at call time (used
only by the `datetime.now()` fallback in the extraction loop). -/
def computeAdvancedAnalytics (now : ℚ) (es : List Entity) : Option AdvReport :=
  if es.length < 3 then none
  else
    let dp := toPoints now es
    if dp = [] then none
    else
      let pts := sortPoints dp
      some
        { trend_analysis :=
            { soil_temp_hourly := calculateHourlyStats pts (·.soil_temp)
              moisture_hourly := calculateHourlyStats pts (·.soil_moisture)
              ir_temp_hourly := calculateHourlyStats pts (·.ir_temp) }
          predictive_watering := predictiveWatering pts
          heat_stress := heatStress pts
          growing_degree_days :=
            { base_temperature := 10
              total_gdd := pyRound (totalGdd pts) 1
              daily_gdd := lastN 7 (gddByDay pts)
              growth_stage_estimate := estimateGrowthStage (totalGdd pts) } }

/-- `compute_advanced_analytics` with the caller's list threaded through: the
only in-place mutation in the source is `data_points.sort(...)`, applied to
the locally built `data_points` list, so the caller's `entities` list comes
back unchanged. -/
def computeAdvancedAnalyticsSt (now : ℚ) (es : List Entity) :
    Option AdvReport × List Entity :=
  (computeAdvancedAnalytics now es, es)

/-! ## Basic facts about the statistical helpers -/

lemma sq_list_sum_nonneg (l : List ℚ) : 0 ≤ (l.map (fun x => x ^ 2)).sum := by
  apply List.sum_nonneg
  intro x hx
  obtain ⟨y, -, rfl⟩ := List.mem_map.mp hx
  positivity

lemma devSq_nonneg (l : List ℚ) : 0 ≤ devSq l := by
  unfold devSq
  apply List.sum_nonneg
  intro x hx
  obtain ⟨y, -, rfl⟩ := List.mem_map.mp hx
  positivity

lemma sampleVar_nonneg (l : List ℚ) : 0 ≤ sampleVar l := by
  unfold sampleVar
  rcases l with - | ⟨a, t⟩
  · simp [devSq, listMean]
  · apply div_nonneg (devSq_nonneg _)
    have : (1:ℚ) ≤ ((a :: t).length : ℚ) := by
      have : 1 ≤ (a :: t).length := by simp
      exact_mod_cast this
    linarith

/-! ## C2 -/

/-- C2: for every window of fewer than 2 values the Statistics Engine
(`safe_stats`) returns the neutral zero-filled summary
`{avg: 0, min: 0, max: 0, std: 0, trend: "stable"}` — a value, not an error
or an absent result. -/
theorem safeStats_min_sample (values : List ℚ) (h : values.length < 2) :
    safeStats values = zeroSummary := by
  simp only [safeStats, if_pos h]

theorem safeStats_min_sample_w :
    ([] : List ℚ).length < 2 ∧ safeStats [] = zeroSummary :=
  ⟨by decide, safeStats_min_sample [] (by decide)⟩

/-! ## C6 -/

/-- C6: the sudden-change check of `detect_anomalies` is skipped entirely
when the previous (second most recent) value of a field is exactly `0`,
and otherwise emits an `"info"` anomaly exactly when
`|curr − prev| / |prev| × 100 > 20`.  The guard means the percentage is
formed only for a nonzero divisor, so the check never divides by zero. -/
theorem suddenChange_zero_guard (es : List Entity) (f : SensorField) :
    (entryVal f es 1 = 0 → changeFor es f = none) ∧
    (entryVal f es 1 ≠ 0 →
      ((changeFor es f).isSome ↔
        20 < |entryVal f es 0 - entryVal f es 1| / |entryVal f es 1| * 100) ∧
      ∀ a, changeFor es f = some a → a.severity = "info") := by
  constructor
  · intro h
    simp [changeFor, h]
  · intro h
    constructor
    · by_cases hpct : 20 < |entryVal f es 0 - entryVal f es 1| / |entryVal f es 1| * 100
      · simp [changeFor, h, hpct]
      · simp [changeFor, h, hpct]
    · intro a ha
      simp only [changeFor, if_pos h] at ha
      split at ha
      · cases ha
        rfl
      · cases ha

def esC6 : List Entity :=
  [⟨some 10, none, none, none, .missing⟩, ⟨some 5, none, none, none, .missing⟩]

theorem suddenChange_zero_guard_w :
    entryVal .soilTemp esC6 1 ≠ 0 ∧
      ((changeFor esC6 .soilTemp).isSome ↔
        20 < |entryVal .soilTemp esC6 0 - entryVal .soilTemp esC6 1| /
          |entryVal .soilTemp esC6 1| * 100) :=
  ⟨by norm_num [entryVal, esC6, fieldVal],
   ((suddenChange_zero_guard esC6 .soilTemp).2
     (by norm_num [entryVal, esC6, fieldVal])).1⟩

/-! ## C8 -/

/-- C8: in `compute_analytics` a reading whose soil-temperature,
soil-moisture or IR-temperature value is exactly `0.0` (or null/absent) is
excluded from that field's statistics window as though it were missing
(falsy-value filtering), whereas rainfall drops only null: a stored `0.0`
rainfall stays in the rainfall list, so it is a summand of the total, widens
the average's denominator by one, and counts as a (non-rainy) reading
without raising `rainy_readings`. -/
theorem zero_value_filtering (es1 es2 : List Entity) (e : Entity) :
    (e.soilTemp = some 0 →
      soilTempsOf (es1 ++ e :: es2) = soilTempsOf (es1 ++ es2)) ∧
    (e.soilMoisture = some 0 →
      soilMoisturesOf (es1 ++ e :: es2) = soilMoisturesOf (es1 ++ es2)) ∧
    (e.irTemp = some 0 →
      irTempsOf (es1 ++ e :: es2) = irTempsOf (es1 ++ es2)) ∧
    (e.rainfall = some 0 →
      rainfallOf (es1 ++ e :: es2) = rainfallOf es1 ++ 0 :: rainfallOf es2 ∧
      (rainfallOf (es1 ++ e :: es2)).length = (rainfallOf (es1 ++ es2)).length + 1 ∧
      (rainStats (rainfallOf (es1 ++ e :: es2))).rainy =
        (rainStats (rainfallOf (es1 ++ es2))).rainy) := by
  refine ⟨fun h => ?_, fun h => ?_, fun h => ?_, fun h => ?_⟩
  · simp [soilTempsOf, truthyVals, List.filterMap_append, List.filterMap_cons, h]
  · simp [soilMoisturesOf, truthyVals, List.filterMap_append, List.filterMap_cons, h]
  · simp [irTempsOf, truthyVals, List.filterMap_append, List.filterMap_cons, h]
  · have hl : rainfallOf (es1 ++ e :: es2) = rainfallOf es1 ++ 0 :: rainfallOf es2 := by
      simp [rainfallOf, List.filterMap_append, List.filterMap_cons, h]
    have hl' : rainfallOf (es1 ++ es2) = rainfallOf es1 ++ rainfallOf es2 := by
      simp [rainfallOf, List.filterMap_append]
    refine ⟨hl, ?_, ?_⟩
    · rw [hl, hl']
      simp
      omega
    · rw [hl, hl']
      simp [rainStats, List.filter_append]

def e8zero : Entity := ⟨some 0, some 0, some 0, some 0, .missing⟩

def e8other : Entity := ⟨some 3, some 4, some 5, some 6, .missing⟩

theorem zero_value_filtering_w :
    e8zero.soilTemp = some 0 ∧
      soilTempsOf ([e8other] ++ e8zero :: [e8other]) =
        soilTempsOf ([e8other] ++ [e8other]) :=
  ⟨by norm_num [e8zero],
   (zero_value_filtering [e8other] [e8other] e8zero).1 (by norm_num [e8zero])⟩

/-! ## C3 (corrected) -/

def eTsMissing : Entity := ⟨some 12, some 40, some 13, some 0, .missing⟩

def eTsA : Entity := ⟨some 12, some 40, some 13, some 0, .valid 0⟩

def eTsB : Entity := ⟨some 12, some 40, some 13, some 0, .valid 3600⟩

/-- C3 counterexample: the claim says a reading whose timestamp is missing is
retained with the current time substituted.  On a 3-row window whose first
row has no `"DateTime"`, the extraction loop of `compute_advanced_analytics`
(called with wall clock `0`) keeps only the two timestamped rows: the
missing-timestamp reading is rejected, not retained as `dt = 0`. -/
theorem missing_timestamp_dropped_cex :
    toPoints 0 [eTsMissing, eTsA, eTsB] =
      [⟨0, 12, 40, 13, 0⟩, ⟨3600, 12, 40, 13, 0⟩] := by
  norm_num [toPoints, eTsMissing, eTsA, eTsB, pointOf, List.filterMap_cons]

/-- C3 (amended): a window of fewer than 3 readings yields `None` for the
whole advanced report (no exception); a reading with a present-but-unparseable
timestamp is retained with the wall clock (`datetime.now()`) substituted; a
reading whose timestamp is missing (or empty) is dropped from the
computation. -/
theorem advanced_min_sample_and_timestamp_fallback :
    (∀ (now : ℚ) (es : List Entity), es.length < 3 →
      computeAdvancedAnalytics now es = none) ∧
    (∀ (now : ℚ) (e : Entity), e.dateTime = .unparseable →
      pointOf now e = some ⟨now, e.soilTemp.getD 0, e.soilMoisture.getD 0,
        e.irTemp.getD 0, e.rainfall.getD 0⟩) ∧
    (∀ (now : ℚ) (e : Entity), e.dateTime = .missing → pointOf now e = none) := by
  refine ⟨fun now es h => ?_, fun now e h => ?_, fun now e h => ?_⟩
  · simp [computeAdvancedAnalytics, if_pos h]
  · simp [pointOf, h]
  · simp [pointOf, h]

theorem advanced_min_sample_and_timestamp_fallback_w :
    computeAdvancedAnalytics 0 [eTsA, eTsB] = none ∧
      pointOf 5 ⟨some 1, some 2, some 3, some 4, .unparseable⟩ =
        some ⟨5, 1, 2, 3, 4⟩ ∧
      pointOf 5 eTsMissing = none :=
  ⟨advanced_min_sample_and_timestamp_fallback.1 0 [eTsA, eTsB] (by decide),
   advanced_min_sample_and_timestamp_fallback.2.1 5 _ rfl,
   advanced_min_sample_and_timestamp_fallback.2.2 5 eTsMissing rfl⟩

/-! ## C1 (corrected) -/

def pts25 : List Point := [⟨0, 0, 25, 0, 0⟩, ⟨3600, 0, 25, 0, 0⟩]

/-- C1 counterexample: the claim says that when current moisture is already
at or below the 30% threshold the *reported* `hours_until_critical` is `0`.
On a window whose moisture sits at 25% the urgency is `"critical"` as
claimed, but the report carries `hours_until_critical = None`, not `0`: the
serialization `round(h, 1) if hours_until_critical else None` treats the
internal `0` as falsy. -/
theorem watering_report_zero_hours_cex :
    currentMoisture pts25 ≤ 30 ∧
      (predictiveWatering pts25).watering_urgency = "critical" ∧
      (predictiveWatering pts25).hours_until_critical = none := by
  refine ⟨by norm_num [currentMoisture, moistureValues, pts25], ?_, ?_⟩ <;>
    norm_num [predictiveWatering, currentMoisture, depletionRate, moistureValues, pts25]

/-- C1 (amended): with `cur` the most recent moisture and `rate` the
window-wide depletion rate, if `rate < 0` and `cur > 30` the projection
`h = (cur − 30) / |rate|` is classified `>168h → "low"` with hours reported
as `None`, `<6h → "critical"`, `<24h → "high"`, `<48h → "medium"`, else
`"low"`, the report carrying `round(h, 1)`; and if `cur ≤ 30` the urgency is
immediately `"critical"` — but the reported `hours_until_critical` is `None`
(the internal projection `0` is mapped to `None` by the falsy serialization
check), not `0`. -/
theorem watering_classification (pts : List Point) :
    (depletionRate pts < 0 → 30 < currentMoisture pts →
      (168 < (currentMoisture pts - 30) / |depletionRate pts| →
        (predictiveWatering pts).hours_until_critical = none ∧
        (predictiveWatering pts).watering_urgency = "low") ∧
      ((currentMoisture pts - 30) / |depletionRate pts| ≤ 168 →
        (predictiveWatering pts).hours_until_critical =
          some (pyRound ((currentMoisture pts - 30) / |depletionRate pts|) 1) ∧
        ((currentMoisture pts - 30) / |depletionRate pts| < 6 →
          (predictiveWatering pts).watering_urgency = "critical") ∧
        (6 ≤ (currentMoisture pts - 30) / |depletionRate pts| →
          (currentMoisture pts - 30) / |depletionRate pts| < 24 →
          (predictiveWatering pts).watering_urgency = "high") ∧
        (24 ≤ (currentMoisture pts - 30) / |depletionRate pts| →
          (currentMoisture pts - 30) / |depletionRate pts| < 48 →
          (predictiveWatering pts).watering_urgency = "medium") ∧
        (48 ≤ (currentMoisture pts - 30) / |depletionRate pts| →
          (predictiveWatering pts).watering_urgency = "low"))) ∧
    (currentMoisture pts ≤ 30 →
      (predictiveWatering pts).hours_until_critical = none ∧
      (predictiveWatering pts).watering_urgency = "critical") := by
  set cur := currentMoisture pts with hcur
  set rate := depletionRate pts with hrate
  constructor
  · intro hr hc
    set h := (cur - 30) / |rate| with hh
    have hcond : rate < 0 ∧ 30 < cur := ⟨hr, hc⟩
    have hpos : 0 < h := by
      rw [hh]
      apply div_pos (by linarith)
      exact abs_pos.mpr (ne_of_lt hr)
    constructor
    · intro h168
      simp [predictiveWatering, ← hcur, ← hrate, ← hh, hcond, h168]
    · intro h168
      have h168' : ¬ 168 < h := not_lt.mpr h168
      refine ⟨?_, fun h6 => ?_, fun h6 h24 => ?_, fun h24 h48 => ?_, fun h48 => ?_⟩
      · by_cases c6 : h < 6
        · simp [predictiveWatering, ← hcur, ← hrate, ← hh, hcond, h168', c6,
            ne_of_gt hpos]
        · by_cases c24 : h < 24
          · simp [predictiveWatering, ← hcur, ← hrate, ← hh, hcond, h168', c6, c24,
              ne_of_gt hpos]
          · by_cases c48 : h < 48
            · simp [predictiveWatering, ← hcur, ← hrate, ← hh, hcond, h168', c6, c24,
                c48, ne_of_gt hpos]
            · simp [predictiveWatering, ← hcur, ← hrate, ← hh, hcond, h168', c6, c24,
                c48, ne_of_gt hpos]
      · simp [predictiveWatering, ← hcur, ← hrate, ← hh, hcond, h168', h6]
      · simp [predictiveWatering, ← hcur, ← hrate, ← hh, hcond, h168',
          not_lt.mpr h6, h24]
      · simp [predictiveWatering, ← hcur, ← hrate, ← hh, hcond, h168',
          not_lt.mpr (by linarith : (6:ℚ) ≤ h), not_lt.mpr h24, h48]
      · simp [predictiveWatering, ← hcur, ← hrate, ← hh, hcond, h168',
          not_lt.mpr (by linarith : (6:ℚ) ≤ h), not_lt.mpr (by linarith : (24:ℚ) ≤ h),
          not_lt.mpr h48]
  · intro hc
    by_cases hr : rate < 0
    · have : ¬ (rate < 0 ∧ 30 < cur) := by
        rintro ⟨-, hgt⟩
        linarith
      simp [predictiveWatering, ← hcur, ← hrate, this, hc]
    · have : ¬ (rate < 0 ∧ 30 < cur) := by
        rintro ⟨hlt, -⟩
        exact hr hlt
      simp [predictiveWatering, ← hcur, ← hrate, this, hc]

def ptsW1 : List Point := [⟨0, 0, 50, 0, 0⟩, ⟨3600, 0, 48, 0, 0⟩]

theorem watering_classification_w :
    (predictiveWatering ptsW1).hours_until_critical = some 9 ∧
      (predictiveWatering ptsW1).watering_urgency = "high" := by
  have h1 : depletionRate ptsW1 < 0 := by
    norm_num [depletionRate, ptsW1, moistureValues, currentMoisture]
  have h2 : (30:ℚ) < currentMoisture ptsW1 := by
    norm_num [currentMoisture, moistureValues, ptsW1]
  have hval : (currentMoisture ptsW1 - 30) / |depletionRate ptsW1| = 9 := by
    norm_num [currentMoisture, depletionRate, moistureValues, ptsW1]
  have key := ((watering_classification ptsW1).1 h1 h2).2 (by rw [hval]; norm_num)
  refine ⟨?_, ?_⟩
  · rw [key.1, hval]
    norm_num [pyRound, pyRoundInt]
  · exact key.2.2.1 (by rw [hval]; norm_num) (by rw [hval]; norm_num)

/-! ## C10 -/

lemma pyRound_zero (n : ℕ) : pyRound 0 n = 0 := by
  norm_num [pyRound, pyRoundInt]

/-- C10: in the z-score check of `detect_anomalies`, the window mean and
standard deviation of a field range over the readings that carry the field
(non-null), but the "latest" value is `entities[0].get(field, 0)` with no
such filter: when the most recent reading lacks the field while at least 5
readings carry it with nonzero spread (and positive mean far enough from 0),
the z-score is formed as if the latest value were `0`, and the missing
observation itself is reported as a `"low"` anomaly with `value = 0`. -/
theorem missing_latest_reads_zero (es : List Entity) (f : SensorField)
    (hhead : es.head?.bind (fieldVal f) = none)
    (h5 : 5 ≤ (fieldValues f es).length)
    (hvar : sampleVar (fieldValues f es) ≠ 0)
    (hz : 25 * sampleVar (fieldValues f es) < 4 * (listMean (fieldValues f es)) ^ 2)
    (hpos : 0 < listMean (fieldValues f es)) :
    zAnomalyFor es f =
      some { sensor := f.name, value := 0, unit := f.unit
             avg := pyRound (listMean (fieldValues f es)) 1
             zSq := (listMean (fieldValues f es)) ^ 2 / sampleVar (fieldValues f es)
             direction := "low"
             severity :=
               if (listMean (fieldValues f es)) ^ 2 < 9 * sampleVar (fieldValues f es)
               then "warning" else "critical" } := by
  have hlatest : entryVal f es 0 = 0 := by
    simp [entryVal, hhead]
  have hsq : (entryVal f es 0 - listMean (fieldValues f es)) ^ 2 =
      (listMean (fieldValues f es)) ^ 2 := by
    rw [hlatest]
    ring
  have hngt : ¬ listMean (fieldValues f es) < entryVal f es 0 := by
    rw [hlatest]
    exact not_lt.mpr (le_of_lt hpos)
  simp only [zAnomalyFor, if_neg (not_lt.mpr h5), if_neg hvar, hsq, if_pos hz]
  rw [if_neg hngt, hlatest, pyRound_zero]

def es10 : List Entity :=
  ⟨none, none, none, none, .missing⟩ ::
    [⟨none, some 50, none, none, .missing⟩, ⟨none, some 50, none, none, .missing⟩,
     ⟨none, some 50, none, none, .missing⟩, ⟨none, some 56, none, none, .missing⟩,
     ⟨none, some 50, none, none, .missing⟩]

theorem missing_latest_reads_zero_w :
    5 ≤ (fieldValues .soilMoisture es10).length ∧
      ∃ a, zAnomalyFor es10 .soilMoisture = some a ∧
        a.value = 0 ∧ a.direction = "low" := by
  have h := missing_latest_reads_zero es10 .soilMoisture
    (by norm_num [es10, fieldVal])
    (by norm_num [es10, fieldValues, fieldVal, List.filterMap_cons])
    (by norm_num [es10, fieldValues, fieldVal, List.filterMap_cons, sampleVar, devSq,
      listMean])
    (by norm_num [es10, fieldValues, fieldVal, List.filterMap_cons, sampleVar, devSq,
      listMean])
    (by norm_num [es10, fieldValues, fieldVal, List.filterMap_cons, listMean])
  exact ⟨by norm_num [es10, fieldValues, fieldVal, List.filterMap_cons],
    ⟨_, h, rfl, rfl⟩⟩

/-! ## C4 -/

lemma half_sqrt_lt_iff (d v : ℚ) (_hv : 0 ≤ v) :
    0.5 * Real.sqrt (v : ℝ) < (d : ℝ) ↔ 0 < d ∧ v < 4 * d ^ 2 := by
  have hs : (0:ℝ) ≤ Real.sqrt (v : ℝ) := Real.sqrt_nonneg _
  constructor
  · intro hlt
    have hdR : (0:ℝ) < (d : ℝ) := lt_of_le_of_lt (by positivity) hlt
    refine ⟨by exact_mod_cast hdR, ?_⟩
    have h2 : Real.sqrt (v : ℝ) < 2 * d := by linarith
    have h3 : (v : ℝ) < (2 * d) ^ 2 := (Real.sqrt_lt' (by linarith)).1 h2
    have h4 : (v : ℝ) < 4 * (d : ℝ) ^ 2 := by nlinarith
    exact_mod_cast h4
  · rintro ⟨hd, h4⟩
    have hdR : (0:ℝ) < (d : ℝ) := by exact_mod_cast hd
    have h4R : (v : ℝ) < 4 * (d : ℝ) ^ 2 := by exact_mod_cast h4
    have h5 : (v : ℝ) < (2 * d) ^ 2 := by nlinarith
    have h6 := (Real.sqrt_lt' (by linarith : (0:ℝ) < 2 * (d : ℝ))).2 h5
    linarith

lemma trendOf_cases (values : List ℚ) (h2 : 2 ≤ values.length) :
    (trendOf values = "rising" ↔
      (0 < listMean (values.drop (values.length / 2)) -
        listMean (values.take (values.length / 2)) ∧
       sampleVar values < 4 * (listMean (values.drop (values.length / 2)) -
        listMean (values.take (values.length / 2))) ^ 2)) ∧
    (trendOf values = "falling" ↔
      (listMean (values.drop (values.length / 2)) -
        listMean (values.take (values.length / 2)) < 0 ∧
       sampleVar values < 4 * (listMean (values.drop (values.length / 2)) -
        listMean (values.take (values.length / 2))) ^ 2)) := by
  have hmid : 0 < values.length / 2 := by omega
  set d := listMean (values.drop (values.length / 2)) -
    listMean (values.take (values.length / 2)) with hd
  by_cases c1 : 0 < d ∧ sampleVar values < 4 * d ^ 2
  · constructor
    · simp [trendOf, if_pos hmid, ← hd, c1]
    · simp only [trendOf, if_pos hmid, ← hd, if_pos c1]
      constructor
      · intro h
        exact absurd h (by decide)
      · rintro ⟨hneg, -⟩
        exact absurd c1.1 (not_lt.mpr (le_of_lt hneg))
  · by_cases c2 : d < 0 ∧ sampleVar values < 4 * d ^ 2
    · constructor
      · simp only [trendOf, if_pos hmid, ← hd, if_neg c1, if_pos c2]
        constructor
        · intro h
          exact absurd h (by decide)
        · rintro ⟨hpos, -⟩
          exact absurd c2.1 (not_lt.mpr (le_of_lt hpos))
      · simp only [trendOf, if_pos hmid, ← hd, if_neg c1, if_pos c2]
        simp [c2]
    · constructor
      · simp only [trendOf, if_pos hmid, ← hd, if_neg c1, if_neg c2]
        constructor
        · intro h
          exact absurd h (by decide)
        · intro h
          exact absurd h c1
      · simp only [trendOf, if_pos hmid, ← hd, if_neg c1, if_neg c2]
        constructor
        · intro h
          exact absurd h (by decide)
        · intro h
          exact absurd h c2

/-- C4: for any window of at least 2 values the trend classification of
`safe_stats` splits the list at `len // 2`, compares the mean of the first
half with the mean of the second half (which contains the middle element for
odd lengths, via `values[mid:]`), and returns `"rising"` exactly when the
second-half mean exceeds the first-half mean by more than
`0.5 × stdev(values)`, `"falling"` exactly when it is lower by more than that
margin, and `"stable"` otherwise. -/
theorem trend_volatility_test (values : List ℚ) (h2 : 2 ≤ values.length) :
    (trendOf values = "rising" ↔
      0.5 * Real.sqrt (sampleVar values : ℝ) <
        ((listMean (values.drop (values.length / 2)) -
          listMean (values.take (values.length / 2)) : ℚ) : ℝ)) ∧
    (trendOf values = "falling" ↔
      ((listMean (values.drop (values.length / 2)) -
        listMean (values.take (values.length / 2)) : ℚ) : ℝ) <
        -(0.5 * Real.sqrt (sampleVar values : ℝ))) ∧
    (trendOf values = "stable" ↔
      ¬(0.5 * Real.sqrt (sampleVar values : ℝ) <
        ((listMean (values.drop (values.length / 2)) -
          listMean (values.take (values.length / 2)) : ℚ) : ℝ)) ∧
      ¬(((listMean (values.drop (values.length / 2)) -
          listMean (values.take (values.length / 2)) : ℚ) : ℝ) <
        -(0.5 * Real.sqrt (sampleVar values : ℝ)))) := by
  obtain ⟨hrise, hfall⟩ := trendOf_cases values h2
  set d := listMean (values.drop (values.length / 2)) -
    listMean (values.take (values.length / 2)) with hd
  have hv := sampleVar_nonneg values
  have hiff1 : (0.5 * Real.sqrt (sampleVar values : ℝ) < (d : ℝ)) ↔
      (0 < d ∧ sampleVar values < 4 * d ^ 2) := half_sqrt_lt_iff d (sampleVar values) hv
  have hiff2 : ((d : ℝ) < -(0.5 * Real.sqrt (sampleVar values : ℝ))) ↔
      (d < 0 ∧ sampleVar values < 4 * d ^ 2) := by
    have := half_sqrt_lt_iff (-d) (sampleVar values) hv
    push_cast at this
    constructor
    · intro h
      have := this.1 (by linarith)
      refine ⟨by linarith [this.1], ?_⟩
      have h2 := this.2
      nlinarith [this.2]
    · rintro ⟨h1, h2⟩
      have := this.2 ⟨by linarith, by nlinarith⟩
      linarith
  refine ⟨hrise.trans hiff1.symm, hfall.trans hiff2.symm, ?_⟩
  constructor
  · intro hst
    constructor
    · intro hcon
      have := hrise.mpr (hiff1.mp hcon)
      rw [this] at hst
      exact absurd hst (by decide)
    · intro hcon
      have := hfall.mpr (hiff2.mp hcon)
      rw [this] at hst
      exact absurd hst (by decide)
  · rintro ⟨hn1, hn2⟩
    have hb1 : ¬ (0 < d ∧ sampleVar values < 4 * d ^ 2) := fun hc => hn1 (hiff1.mpr hc)
    have hb2 : ¬ (d < 0 ∧ sampleVar values < 4 * d ^ 2) := fun hc => hn2 (hiff2.mpr hc)
    have hmid : 0 < values.length / 2 := by omega
    simp only [trendOf, if_pos hmid, ← hd, if_neg hb1, if_neg hb2]

theorem trend_volatility_test_w : trendOf [1, 1, 5, 5] = "rising" := by
  have h := (trend_volatility_test [1, 1, 5, 5] (by decide)).1
  apply h.mpr
  have hv : sampleVar [1, 1, 5, 5] = 16/3 := by
    norm_num [sampleVar, devSq, listMean]
  have hdq : listMean (([1, 1, 5, 5] : List ℚ).drop (([1, 1, 5, 5] : List ℚ).length / 2)) -
      listMean (([1, 1, 5, 5] : List ℚ).take (([1, 1, 5, 5] : List ℚ).length / 2)) = 4 := by
    norm_num [listMean]
  rw [hv, hdq]
  have hs : Real.sqrt ((16/3 : ℚ) : ℝ) < 8 := by
    rw [Real.sqrt_lt' (by norm_num)]
    push_cast
    norm_num
  push_cast
  linarith

/-! ## C5

The z-score check can only fire when a field carries at least 5 non-null
values.  When it carries fewer (but the window itself has ≥ 5 rows) the
check is skipped; the Samuelson bound `|x - mean| ≤ stdev·(n-1)/√n` shows the
claimed trigger condition `|z| > 2.5` is unsatisfiable there anyway (for
`n ≤ 4` readings carrying the field, `(n-1)/√n ≤ 3/2`), so the claimed
"exactly when" biconditional still holds on every window. -/

lemma sum_map_sub_const (t : List ℚ) (c : ℚ) :
    (t.map (fun y => y - c)).sum = t.sum - t.length * c := by
  induction t with
  | nil => simp
  | cons a t ih =>
    simp only [List.map_cons, List.sum_cons, List.length_cons, ih]
    push_cast
    ring

/-- Cauchy–Schwarz against the all-ones vector, in list form. -/
lemma list_sq_sum_le (l : List ℚ) :
    l.sum ^ 2 ≤ (l.length : ℚ) * (l.map (fun x => x ^ 2)).sum := by
  induction l with
  | nil => simp
  | cons a t ih =>
    simp only [List.sum_cons, List.length_cons, List.map_cons]
    push_cast
    have hq : 0 ≤ (t.map (fun x => x ^ 2)).sum := sq_list_sum_nonneg t
    rcases Nat.eq_zero_or_pos t.length with h0 | hpos
    · obtain rfl : t = [] := List.length_eq_zero.mp h0
      simp
    · have hn : (1:ℚ) ≤ (t.length : ℚ) := by exact_mod_cast hpos
      nlinarith [ih, sq_nonneg ((t.length : ℚ) * a - t.sum),
        mul_nonneg (sub_nonneg.mpr ih) (by linarith : (0:ℚ) ≤ (t.length : ℚ) + 1)]

/-- Samuelson's inequality: any single element deviates from the mean by at
most `(n-1)/√n` sample standard deviations (stated square-free). -/
lemma samuelson (l : List ℚ) (x : ℚ) (hx : x ∈ l) :
    (l.length : ℚ) * (x - listMean l) ^ 2 ≤ ((l.length : ℚ) - 1) * devSq l := by
  have hperm : l.Perm (x :: l.erase x) := List.perm_cons_erase hx
  set t := l.erase x with ht
  set μ := listMean l with hμ
  have hlen : l.length = t.length + 1 := by
    rw [hperm.length_eq]
    simp
  have hsum : l.sum = x + t.sum := by
    rw [hperm.sum_eq]
    simp
  have hdev : devSq l = (x - μ) ^ 2 + (t.map (fun y => (y - μ) ^ 2)).sum := by
    unfold devSq
    rw [(hperm.map (fun y => (y - μ) ^ 2)).sum_eq]
    simp [← hμ]
  have hn1 : (0:ℚ) < (l.length : ℚ) := by
    have : 0 < l.length := List.length_pos.mpr (List.ne_nil_of_mem hx)
    exact_mod_cast this
  have hμsum : μ * (l.length : ℚ) = l.sum := by
    rw [hμ]
    unfold listMean
    field_simp
  have htl : (t.length : ℚ) = (l.length : ℚ) - 1 := by
    rw [hlen]
    push_cast
    ring
  have hst : (t.map (fun y => y - μ)).sum = μ - x := by
    rw [sum_map_sub_const]
    have hts : t.sum = l.sum - x := by
      rw [hsum]
      ring
    rw [hts, htl]
    linarith [hμsum]
  have hcs := list_sq_sum_le (t.map (fun y => y - μ))
  rw [hst, List.map_map, List.length_map] at hcs
  have hmm : (t.map ((fun x => x ^ 2) ∘ fun y => y - μ)).sum
      = (t.map (fun y => (y - μ) ^ 2)).sum := rfl
  rw [hmm, htl] at hcs
  have hsq : (μ - x) ^ 2 = (x - μ) ^ 2 := by ring
  rw [hsq] at hcs
  nlinarith [hcs, hdev, sq_nonneg (x - μ)]

lemma zAnomalyFor_short (es : List Entity) (f : SensorField)
    (h : (fieldValues f es).length < 5) : zAnomalyFor es f = none := by
  simp only [zAnomalyFor, if_pos h]

lemma zAnomalyFor_zerovar (es : List Entity) (f : SensorField)
    (h5 : ¬ (fieldValues f es).length < 5)
    (h : sampleVar (fieldValues f es) = 0) : zAnomalyFor es f = none := by
  simp only [zAnomalyFor, if_neg h5, if_pos h]

lemma zAnomalyFor_quiet (es : List Entity) (f : SensorField)
    (h5 : ¬ (fieldValues f es).length < 5)
    (hv : ¬ sampleVar (fieldValues f es) = 0)
    (h : ¬ 25 * sampleVar (fieldValues f es) <
      4 * (entryVal f es 0 - listMean (fieldValues f es)) ^ 2) :
    zAnomalyFor es f = none := by
  simp only [zAnomalyFor, if_neg h5, if_neg hv, if_neg h]

lemma zAnomalyFor_emit (es : List Entity) (f : SensorField)
    (h5 : ¬ (fieldValues f es).length < 5)
    (hv : ¬ sampleVar (fieldValues f es) = 0)
    (h : 25 * sampleVar (fieldValues f es) <
      4 * (entryVal f es 0 - listMean (fieldValues f es)) ^ 2) :
    zAnomalyFor es f =
      some { sensor := f.name, value := pyRound (entryVal f es 0) 1, unit := f.unit
             avg := pyRound (listMean (fieldValues f es)) 1
             zSq := (entryVal f es 0 - listMean (fieldValues f es)) ^ 2 /
               sampleVar (fieldValues f es)
             direction :=
               if listMean (fieldValues f es) < entryVal f es 0 then "high" else "low"
             severity :=
               if (entryVal f es 0 - listMean (fieldValues f es)) ^ 2 <
                 9 * sampleVar (fieldValues f es) then "warning" else "critical" } := by
  simp only [zAnomalyFor, if_neg h5, if_neg hv, if_pos h]

lemma zflag_iff (d var : ℚ) (hpos : 0 < var) :
    2.5 < |(d : ℝ)| / Real.sqrt (var : ℝ) ↔ 25 * var < 4 * d ^ 2 := by
  have hvr : (0:ℝ) ≤ (var : ℝ) := by exact_mod_cast le_of_lt hpos
  have hσ : 0 < Real.sqrt (var : ℝ) := Real.sqrt_pos.mpr (by exact_mod_cast hpos)
  have hsq : Real.sqrt (var : ℝ) ^ 2 = (var : ℝ) := Real.sq_sqrt hvr
  rw [lt_div_iff₀ hσ]
  constructor
  · intro h
    have h4 : (25:ℝ) * var < 4 * (d : ℝ) ^ 2 := by
      nlinarith [h, hσ, abs_nonneg (d : ℝ), sq_abs (d : ℝ)]
    exact_mod_cast h4
  · intro h
    have hR : (25:ℝ) * var < 4 * (d : ℝ) ^ 2 := by exact_mod_cast h
    by_contra hc
    push_neg at hc
    nlinarith [hc, abs_nonneg (d : ℝ), sq_abs (d : ℝ), hσ]

lemma zsev_iff (d var : ℚ) (hpos : 0 < var) :
    3 * Real.sqrt (var : ℝ) ≤ |(d : ℝ)| ↔ 9 * var ≤ d ^ 2 := by
  have hvr : (0:ℝ) ≤ (var : ℝ) := by exact_mod_cast le_of_lt hpos
  have hσ : 0 < Real.sqrt (var : ℝ) := Real.sqrt_pos.mpr (by exact_mod_cast hpos)
  have hsq : Real.sqrt (var : ℝ) ^ 2 = (var : ℝ) := Real.sq_sqrt hvr
  constructor
  · intro h
    have h9 : (9:ℝ) * var ≤ (d : ℝ) ^ 2 := by
      nlinarith [h, hσ, abs_nonneg (d : ℝ), sq_abs (d : ℝ)]
    exact_mod_cast h9
  · intro h
    have hR : (9:ℝ) * var ≤ (d : ℝ) ^ 2 := by exact_mod_cast h
    by_contra hc
    push_neg at hc
    nlinarith [hc, abs_nonneg (d : ℝ), sq_abs (d : ℝ), hσ]

/-- C5: a window of fewer than 5 readings produces no anomalies at all; on a
window of at least 5 readings whose most recent reading carries the field, a
z-score anomaly for that field is emitted exactly when the field's window
standard deviation is nonzero and `|latest − mean| / stdev > 2.5` (a field
with zero spread is skipped, never divided by), with severity `"critical"`
exactly when the z-score is at least 3 and `"warning"` otherwise, and
direction `"high"` exactly when the latest value exceeds the window mean. -/
theorem zscore_anomaly_spec (es : List Entity) :
    (es.length < 5 → detectAnomalies es = ([], [])) ∧
    (5 ≤ es.length → ∀ (f : SensorField) (v : ℚ),
      es.head?.bind (fieldVal f) = some v →
      ((∃ a, zAnomalyFor es f = some a) ↔
        (Real.sqrt (sampleVar (fieldValues f es) : ℝ) ≠ 0 ∧
         2.5 < |((v - listMean (fieldValues f es) : ℚ) : ℝ)| /
           Real.sqrt (sampleVar (fieldValues f es) : ℝ))) ∧
      (∀ a, zAnomalyFor es f = some a →
        (a.direction = "high" ↔ listMean (fieldValues f es) < v) ∧
        (a.severity = "critical" ↔
          3 * Real.sqrt (sampleVar (fieldValues f es) : ℝ) ≤
            |((v - listMean (fieldValues f es) : ℚ) : ℝ)|) ∧
        (a.severity = "warning" ↔
          |((v - listMean (fieldValues f es) : ℚ) : ℝ)| <
            3 * Real.sqrt (sampleVar (fieldValues f es) : ℝ)))) := by
  constructor
  · intro h
    simp only [detectAnomalies, if_pos h]
  · intro h5 f v hv
    have hlatest : entryVal f es 0 = v := by
      simp [entryVal, hv]
    have hvmem : v ∈ fieldValues f es := by
      rcases es with - | ⟨e0, tl⟩
      · simp at hv
      · have he0 : fieldVal f e0 = some v := by simpa using hv
        simp [fieldValues, List.filterMap_cons, he0]
    set vals := fieldValues f es with hvals
    set μ := listMean vals with hμ
    set var := sampleVar vals with hvar
    have hvnn : 0 ≤ var := sampleVar_nonneg vals
    by_cases hlen : vals.length < 5
    · have hnone := zAnomalyFor_short es f hlen
      refine ⟨⟨?_, ?_⟩, ?_⟩
      · rintro ⟨a, ha⟩
        rw [hnone] at ha
        cases ha
      · rintro ⟨hσ, hgt⟩
        exfalso
        have hvarpos : 0 < var := by
          rcases lt_or_eq_of_le hvnn with h | h
          · exact h
          · exact absurd (by rw [← h]; simp) hσ
        have hQ : 25 * var < 4 * (v - μ) ^ 2 := (zflag_iff (v - μ) var hvarpos).1 hgt
        have hn1 : 1 ≤ vals.length := List.length_pos.mpr (List.ne_nil_of_mem hvmem)
        rcases eq_or_lt_of_le hn1 with h1 | h2
        · have hz : var = 0 := by
            rw [hvar]
            unfold sampleVar
            rw [← h1]
            norm_num
          exact absurd hz (ne_of_gt hvarpos)
        · have hn2 : 2 ≤ vals.length := h2
          have hn4 : vals.length ≤ 4 := by omega
          have hQn2 : (2:ℚ) ≤ (vals.length : ℚ) := by exact_mod_cast hn2
          have hQn4 : ((vals.length : ℚ)) ≤ 4 := by exact_mod_cast hn4
          have hsam := samuelson vals v hvmem
          have hne : ((vals.length : ℚ) - 1) ≠ 0 := by linarith
          have hdev : devSq vals = var * ((vals.length : ℚ) - 1) := by
            rw [hvar]
            unfold sampleVar
            field_simp
          rw [hdev] at hsam
          have key : 4 * ((vals.length : ℚ) - 1) ^ 2 ≤ 9 * (vals.length : ℚ) := by
            nlinarith [mul_nonneg (sub_nonneg.mpr hQn2) (sub_nonneg.mpr hQn4)]
          have key2 : var * (4 * ((vals.length : ℚ) - 1) ^ 2) ≤
              var * (9 * (vals.length : ℚ)) :=
            mul_le_mul_of_nonneg_left key (le_of_lt hvarpos)
          nlinarith [hsam, hQ, hvarpos, key2, hQn2]
      · intro a ha
        rw [hnone] at ha
        cases ha
    · by_cases hv0 : var = 0
      · have hnone := zAnomalyFor_zerovar es f hlen hv0
        refine ⟨⟨?_, ?_⟩, ?_⟩
        · rintro ⟨a, ha⟩
          rw [hnone] at ha
          cases ha
        · rintro ⟨hσ, -⟩
          exact absurd (by rw [hv0]; simp) hσ
        · intro a ha
          rw [hnone] at ha
          cases ha
      · have hvarpos : 0 < var := lt_of_le_of_ne hvnn (Ne.symm hv0)
        have hσpos : 0 < Real.sqrt (var : ℝ) :=
          Real.sqrt_pos.mpr (by exact_mod_cast hvarpos)
        by_cases hflag : 25 * var < 4 * (v - μ) ^ 2
        · have hflag' : 25 * sampleVar (fieldValues f es) <
              4 * (entryVal f es 0 - listMean (fieldValues f es)) ^ 2 := by
            rw [hlatest]
            exact hflag
          have hemit := zAnomalyFor_emit es f hlen hv0 hflag'
          refine ⟨⟨?_, ?_⟩, ?_⟩
          · intro _
            exact ⟨ne_of_gt hσpos, (zflag_iff (v - μ) var hvarpos).2 hflag⟩
          · intro _
            exact ⟨_, hemit⟩
          · intro a ha
            rw [hemit] at ha
            injection ha with ha'
            subst ha'
            simp only [hlatest, ← hvals, ← hμ, ← hvar]
            refine ⟨?_, ?_, ?_⟩
            · by_cases hd : μ < v
              · simp [hd]
              · simp [hd]
            · by_cases hs : (v - μ) ^ 2 < 9 * var
              · rw [if_pos hs]
                constructor
                · intro hcon
                  exact absurd hcon (by decide)
                · intro hcon
                  exact absurd ((zsev_iff (v - μ) var hvarpos).1 hcon) (not_le.mpr hs)
              · rw [if_neg hs]
                constructor
                · intro _
                  exact (zsev_iff (v - μ) var hvarpos).2 (not_lt.mp hs)
                · intro _
                  rfl
            · by_cases hs : (v - μ) ^ 2 < 9 * var
              · rw [if_pos hs]
                constructor
                · intro _
                  by_contra hc
                  push_neg at hc
                  exact absurd ((zsev_iff (v - μ) var hvarpos).1 hc) (not_le.mpr hs)
                · intro _
                  rfl
              · rw [if_neg hs]
                constructor
                · intro hcon
                  exact absurd hcon (by decide)
                · intro hcon
                  exact absurd ((zsev_iff (v - μ) var hvarpos).2 (not_lt.mp hs))
                    (not_le.mpr hcon)
        · have hflag' : ¬ 25 * sampleVar (fieldValues f es) <
              4 * (entryVal f es 0 - listMean (fieldValues f es)) ^ 2 := by
            rw [hlatest]
            exact hflag
          have hnone := zAnomalyFor_quiet es f hlen hv0 hflag'
          refine ⟨⟨?_, ?_⟩, ?_⟩
          · rintro ⟨a, ha⟩
            rw [hnone] at ha
            cases ha
          · rintro ⟨-, hgt⟩
            exact absurd ((zflag_iff (v - μ) var hvarpos).1 hgt) hflag
          · intro a ha
            rw [hnone] at ha
            cases ha

def es9 : List Entity :=
  [⟨some 10, none, none, none, .missing⟩,
   ⟨some 1, none, none, none, .missing⟩, ⟨some 1, none, none, none, .missing⟩,
   ⟨some 1, none, none, none, .missing⟩, ⟨some 1, none, none, none, .missing⟩,
   ⟨some 1, none, none, none, .missing⟩, ⟨some 1, none, none, none, .missing⟩,
   ⟨some 1, none, none, none, .missing⟩, ⟨some 1, none, none, none, .missing⟩]

theorem zscore_anomaly_spec_w :
    5 ≤ es9.length ∧
      ∃ a, zAnomalyFor es9 .soilTemp = some a ∧
        a.direction = "high" ∧ a.severity = "warning" := by
  have h5 : 5 ≤ es9.length := by norm_num [es9]
  have hhead : es9.head?.bind (fieldVal SensorField.soilTemp) = some 10 := by
    norm_num [es9, fieldVal]
  have hvals : fieldValues SensorField.soilTemp es9 = [10, 1, 1, 1, 1, 1, 1, 1, 1] := by
    norm_num [es9, fieldValues, fieldVal, List.filterMap_cons]
  have hlen : ¬ (fieldValues SensorField.soilTemp es9).length < 5 := by
    rw [hvals]
    norm_num
  have hvar : sampleVar (fieldValues SensorField.soilTemp es9) = 9 := by
    rw [hvals]
    norm_num [sampleVar, devSq, listMean]
  have hmean : listMean (fieldValues SensorField.soilTemp es9) = 2 := by
    rw [hvals]
    norm_num [listMean]
  have hentry : entryVal SensorField.soilTemp es9 0 = 10 := by
    norm_num [entryVal, es9, fieldVal]
  have hvar0 : ¬ sampleVar (fieldValues SensorField.soilTemp es9) = 0 := by
    rw [hvar]
    norm_num
  have hflag : 25 * sampleVar (fieldValues SensorField.soilTemp es9) <
      4 * (entryVal SensorField.soilTemp es9 0 -
        listMean (fieldValues SensorField.soilTemp es9)) ^ 2 := by
    rw [hvar, hmean, hentry]
    norm_num
  have hemit := zAnomalyFor_emit es9 SensorField.soilTemp hlen hvar0 hflag
  have spec := ((zscore_anomaly_spec es9).2 h5 SensorField.soilTemp 10 hhead).2 _ hemit
  refine ⟨h5, _, hemit, ?_, ?_⟩
  · exact spec.1.mpr (by rw [hmean]; norm_num)
  · apply spec.2.2.mpr
    rw [hmean, hvar]
    have h3 : Real.sqrt ((9:ℚ) : ℝ) = 3 := by
      rw [show ((9:ℚ):ℝ) = 3 ^ 2 by norm_num]
      exact Real.sqrt_sq (by norm_num)
    rw [h3]
    norm_num

/-! ## C7

`gddByDaySpec` below restates the GDD computation the way the specification
describes it: group points by calendar day, average the soil temperature per
day, clamp at the base temperature, and accumulate in chronological date
order.  The refinement theorem proves the dictionary-and-fold implementation
equal to it on every window. -/

def chronoDays (pts : List Point) : List ℤ :=
  ((pts.map (fun p => dayKey p.dt)).dedup).mergeSort (fun a b => decide (a ≤ b))

def dayTemps (pts : List Point) (d : ℤ) : List ℚ :=
  (pts.filter (fun p => decide (dayKey p.dt = d))).map (·.soil_temp)

/-- The GDD table as the specification words it: one entry per distinct
calendar day in chronological order, `gdd = max 0 (day mean − 10)`, and the
cumulative column summing the clamped values over all days up to and
including the entry's day. -/
def gddByDaySpec (pts : List Point) : List GddEntry :=
  (chronoDays pts).map (fun d =>
    { date := d
      avg_temp := pyRound (listMean (dayTemps pts d)) 1
      gdd := pyRound (max 0 (listMean (dayTemps pts d) - 10)) 1
      cumulative_gdd := pyRound
        (((chronoDays pts).filter (fun x => decide (x ≤ d))).map
          (fun x => max 0 (listMean (dayTemps pts x) - 10))).sum 1 })

lemma alookup_update (acc : List (ℤ × List ℚ)) (b : ℤ) (v : ℚ) (k : ℤ) :
    alookup k (acc.map (fun kv => if kv.1 = b then (kv.1, kv.2 ++ [v]) else kv)) =
      if k = b then (alookup k acc).map (fun vs => vs ++ [v]) else alookup k acc := by
  induction acc with
  | nil => simp [alookup]
  | cons kv rest ih =>
    by_cases h1 : kv.1 = b
    · by_cases h2 : k = b
      · have h3 : kv.1 = k := by rw [h1, h2]
        simp [alookup, h1, h2, h3]
      · have h3 : ¬ kv.1 = k := by
          rw [h1]
          exact fun hc => h2 hc.symm
        have h4 : ¬ b = k := fun hc => h2 hc.symm
        simp [alookup, h1, h2, h3, h4, ih]
    · by_cases h3 : kv.1 = k
      · have h2 : ¬ k = b := by
          rw [← h3]
          exact fun hc => h1 hc
        simp [alookup, h1, h2, h3]
      · by_cases h2 : k = b
        · subst h2
          simp [alookup, h1, h3, ih]
        · simp [alookup, h1, h2, h3, ih]

lemma alookup_append_one (acc : List (ℤ × List ℚ)) (b : ℤ) (l : List ℚ) (k : ℤ) :
    alookup k (acc ++ [(b, l)]) =
      match alookup k acc with
      | some vs => some vs
      | none => if b = k then some l else none := by
  induction acc with
  | nil => simp [alookup]
  | cons kv rest ih =>
    by_cases h : kv.1 = k
    · simp [alookup, h]
    · simp [alookup, h, ih]

lemma alookup_isSome_iff (k : ℤ) (acc : List (ℤ × List ℚ)) :
    (alookup k acc).isSome = true ↔ k ∈ acc.map Prod.fst := by
  induction acc with
  | nil => simp [alookup]
  | cons kv rest ih =>
    by_cases h : kv.1 = k
    · simp [alookup, h]
    · have h' : ¬ k = kv.1 := fun hc => h hc.symm
      simp [alookup, h, h', ih]

lemma keys_addKey (b : ℤ) (v : ℚ) (acc : List (ℤ × List ℚ)) :
    (addKey b v acc).map Prod.fst =
      if (alookup b acc).isSome then acc.map Prod.fst
      else acc.map Prod.fst ++ [b] := by
  unfold addKey
  cases h : alookup b acc with
  | some vs =>
    simp only [h, Option.isSome_some, if_true]
    rw [List.map_map]
    apply List.map_congr_left
    intro kv _
    by_cases hkv : kv.1 = b
    · simp [hkv]
    · simp [hkv]
  | none => simp [h]

lemma alookup_groupByKey (keyf : Point → ℤ) (vf : Point → ℚ) (pts : List Point) :
    ∀ k, alookup k (groupByKey keyf vf pts) =
      if k ∈ pts.map keyf then
        some ((pts.filter (fun p => decide (keyf p = k))).map vf)
      else none := by
  induction pts using List.reverseRecOn with
  | nil => simp [groupByKey, alookup]
  | append_singleton pts p ih =>
    intro k
    have hg : groupByKey keyf vf (pts ++ [p]) =
        addKey (keyf p) (vf p) (groupByKey keyf vf pts) := by
      unfold groupByKey
      rw [List.foldl_append]
      rfl
    rw [hg]
    unfold addKey
    cases hl : alookup (keyf p) (groupByKey keyf vf pts) with
    | some vs =>
      rw [alookup_update]
      have h1 := ih (keyf p)
      rw [hl] at h1
      by_cases hm : keyf p ∈ pts.map keyf
      · rw [if_pos hm] at h1
        have hvs : vs = ((pts.filter (fun q => decide (keyf q = keyf p))).map vf) :=
          Option.some.inj h1
        by_cases hk : k = keyf p
        · subst hk
          rw [if_pos rfl, hl]
          rw [if_pos (by simp)]
          simp only [List.filter_append, List.map_append, hvs]
          simp [List.filter]
        · rw [if_neg hk, ih k]
          by_cases hm2 : k ∈ pts.map keyf
          · rw [if_pos hm2, if_pos (by simp [hm2])]
            have hne : ¬ (keyf p = k) := fun hc => hk hc.symm
            simp [List.filter_append, List.filter, hne]
          · rw [if_neg hm2, if_neg ?side1]
            case side1 =>
              simp only [List.map_append, List.map_cons, List.map_nil, List.mem_append,
                List.mem_singleton]
              rintro (hc | hc)
              · exact hm2 hc
              · exact hk hc
      · rw [if_neg hm] at h1
        simp at h1
    | none =>
      rw [alookup_append_one]
      have h1 := ih (keyf p)
      rw [hl] at h1
      have hm : keyf p ∉ pts.map keyf := by
        by_contra hc
        rw [if_pos hc] at h1
        simp at h1
      rw [ih k]
      by_cases hm2 : k ∈ pts.map keyf
      · simp only [if_pos hm2]
        have hne : ¬ (keyf p = k) := by
          intro hc
          subst hc
          exact hm hm2
        rw [if_pos (by simp [hm2])]
        simp [List.filter_append, List.filter, hne]
      · simp only [if_neg hm2]
        by_cases hk : keyf p = k
        · subst hk
          rw [if_pos rfl, if_pos (by simp)]
          have hnil : pts.filter (fun q => decide (keyf q = keyf p)) = [] := by
            rw [List.filter_eq_nil_iff]
            intro a ha
            simp only [decide_eq_true_eq]
            intro hc
            exact hm2 (List.mem_map.mpr ⟨a, ha, hc⟩)
          simp [List.filter_append, List.filter, hnil]
        · rw [if_neg hk, if_neg ?side2]
          case side2 =>
            simp only [List.map_append, List.map_cons, List.map_nil, List.mem_append,
              List.mem_singleton]
            rintro (hc | hc)
            · exact hm2 hc
            · exact hk hc.symm

lemma keys_groupByKey_mem (keyf : Point → ℤ) (vf : Point → ℚ) (pts : List Point)
    (k : ℤ) :
    k ∈ (groupByKey keyf vf pts).map Prod.fst ↔ k ∈ pts.map keyf := by
  rw [← alookup_isSome_iff, alookup_groupByKey]
  by_cases h : k ∈ pts.map keyf <;> simp [h]

lemma keys_groupByKey_nodup (keyf : Point → ℤ) (vf : Point → ℚ) (pts : List Point) :
    ((groupByKey keyf vf pts).map Prod.fst).Nodup := by
  induction pts using List.reverseRecOn with
  | nil => simp [groupByKey]
  | append_singleton pts p ih =>
    have hg : groupByKey keyf vf (pts ++ [p]) =
        addKey (keyf p) (vf p) (groupByKey keyf vf pts) := by
      unfold groupByKey
      rw [List.foldl_append]
      rfl
    rw [hg, keys_addKey]
    by_cases h : (alookup (keyf p) (groupByKey keyf vf pts)).isSome
    · simp [h, ih]
    · simp only [h, Bool.false_eq_true, if_false]
      have hnm : keyf p ∉ (groupByKey keyf vf pts).map Prod.fst := by
        rw [← alookup_isSome_iff]
        simpa using h
      simp [List.nodup_append, ih, hnm]

lemma sorted_mergeSort_le (l : List ℤ) :
    List.Sorted (· ≤ ·) (l.mergeSort (fun a b => decide (a ≤ b))) := by
  have h := @List.sorted_mergeSort ℤ (fun a b => decide (a ≤ b))
    (fun a b c hab hbc => by
      simp only [decide_eq_true_eq] at *
      omega)
    (fun a b => by
      simp only [Bool.or_eq_true, decide_eq_true_eq]
      omega) l
  exact List.Pairwise.imp (fun hab => by simpa using hab) h

lemma mergeSort_eq_of_perm {l1 l2 : List ℤ} (h : l1.Perm l2) :
    l1.mergeSort (fun a b => decide (a ≤ b)) =
      l2.mergeSort (fun a b => decide (a ≤ b)) :=
  List.eq_of_perm_of_sorted
    (((List.mergeSort_perm l1 _).trans h).trans (List.mergeSort_perm l2 _).symm)
    (sorted_mergeSort_le l1) (sorted_mergeSort_le l2)

/-- The sorted key list of the day-grouping dictionary is exactly the sorted
list of distinct day keys of the window. -/
lemma sortedKeys_groupByKey (keyf : Point → ℤ) (vf : Point → ℚ) (pts : List Point) :
    sortedKeys (groupByKey keyf vf pts) =
      ((pts.map keyf).dedup).mergeSort (fun a b => decide (a ≤ b)) := by
  apply mergeSort_eq_of_perm
  apply (List.perm_ext_iff_of_nodup (keys_groupByKey_nodup keyf vf pts)
    (List.nodup_dedup _)).mpr
  intro a
  rw [keys_groupByKey_mem, List.mem_dedup]

lemma gddFold_go (g : List (ℤ × List ℚ)) (tempsOf : ℤ → List ℚ) :
    ∀ (days : List ℤ), List.Sorted (· < ·) days →
      (∀ d ∈ days, alookup d g = some (tempsOf d) ∧ tempsOf d ≠ []) →
      ∀ (t0 : ℚ) (acc : List GddEntry),
      days.foldl (gddStep g) (t0, acc) =
        (t0 + (days.map (fun d => max 0 (listMean (tempsOf d) - 10))).sum,
         acc ++ days.map (fun d =>
           { date := d
             avg_temp := pyRound (listMean (tempsOf d)) 1
             gdd := pyRound (max 0 (listMean (tempsOf d) - 10)) 1
             cumulative_gdd := pyRound (t0 +
               ((days.filter (fun x => decide (x ≤ d))).map
                 (fun x => max 0 (listMean (tempsOf x) - 10))).sum) 1 })) := by
  intro days
  induction days with
  | nil => simp
  | cons d rest ih =>
    intro hs hlook t0 acc
    obtain ⟨hld, hne⟩ := hlook d (List.mem_cons_self d rest)
    have hrest : ∀ x ∈ rest, d < x := List.rel_of_sorted_cons hs
    have hstep : gddStep g (t0, acc) d =
        (t0 + max 0 (listMean (tempsOf d) - 10),
         acc ++ [{ date := d
                   avg_temp := pyRound (listMean (tempsOf d)) 1
                   gdd := pyRound (max 0 (listMean (tempsOf d) - 10)) 1
                   cumulative_gdd :=
                     pyRound (t0 + max 0 (listMean (tempsOf d) - 10)) 1 }]) := by
      unfold gddStep
      rw [hld]
      simp [hne]
    rw [List.foldl_cons, hstep,
      ih hs.of_cons (fun x hx => hlook x (List.mem_cons_of_mem d hx))]
    rw [Prod.mk.injEq]
    constructor
    · simp only [List.map_cons, List.sum_cons]
      ring
    · rw [List.append_assoc, List.singleton_append]
      congr 1
      have hrestnil : rest.filter (fun x => decide (x ≤ d)) = [] := by
        rw [List.filter_eq_nil_iff]
        intro x hx
        simp only [decide_eq_true_eq]
        exact not_le.mpr (hrest x hx)
      have hfd : (d :: rest).filter (fun x => decide (x ≤ d)) = [d] := by
        simp [List.filter_cons, hrestnil]
      rw [List.map_cons]
      congr 1
      · rw [hfd]
        simp
      · apply List.map_congr_left
        intro x hx
        have hdx : d ≤ x := le_of_lt (hrest x hx)
        have hfx : (d :: rest).filter (fun y => decide (y ≤ x)) =
            d :: rest.filter (fun y => decide (y ≤ x)) := by
          simp [List.filter_cons, hdx]
        rw [hfx]
        simp only [List.map_cons, List.sum_cons]
        congr 2
        ring

def pts7 : List Point :=
  [⟨0, 14, 0, 0, 0⟩, ⟨3600, 16, 0, 0, 0⟩, ⟨90000, 20, 0, 0, 0⟩]

/-- C7: on every window, the GDD table of `compute_advanced_analytics`
(base temperature `10.0`) groups points by calendar day, scores each day as
`max 0 (day mean soil temperature − 10)`, and accumulates the running sum in
chronological date order — the dictionary-and-fold implementation equals the
specification-shaped `gddByDaySpec` on all inputs.  In particular a window
spanning two days with daily average soil temperatures 15 °C and 20 °C yields
daily GDD 5.0 and 10.0, cumulative GDD 15.0, and growth stage
`"Dormant/Early"` with progress `30`. -/
theorem gdd_grouping_and_instance :
    (∀ pts : List Point, gddByDay pts = gddByDaySpec pts) ∧
    gddByDay pts7 =
      [{ date := 0, avg_temp := 15, gdd := 5, cumulative_gdd := 5 },
       { date := 1, avg_temp := 20, gdd := 10, cumulative_gdd := 15 }] ∧
    totalGdd pts7 = 15 ∧
    estimateGrowthStage (totalGdd pts7) =
      { stage := "Dormant/Early", description := "Seeds germinating or early growth"
        progress := 30 } := by
  have hgen : ∀ pts : List Point, gddByDay pts = gddByDaySpec pts := by
    intro pts
    have hdays : sortedKeys (groupByKey (fun p => dayKey p.dt)
        (fun p => p.soil_temp) pts) =
        ((pts.map (fun p => dayKey p.dt)).dedup).mergeSort (fun a b => decide (a ≤ b)) :=
      sortedKeys_groupByKey _ _ _
    have hnodup : (((pts.map (fun p => dayKey p.dt)).dedup).mergeSort
        (fun a b => decide (a ≤ b))).Nodup :=
      (List.mergeSort_perm _ _).nodup_iff.mpr (List.nodup_dedup _)
    have hsorted : List.Sorted (· < ·)
        (((pts.map (fun p => dayKey p.dt)).dedup).mergeSort
          (fun a b => decide (a ≤ b))) :=
      (sorted_mergeSort_le _).lt_of_le hnodup
    have hlook : ∀ d ∈ ((pts.map (fun p => dayKey p.dt)).dedup).mergeSort
        (fun a b => decide (a ≤ b)),
        alookup d (groupByKey (fun p => dayKey p.dt) (fun p => p.soil_temp) pts) =
          some (dayTemps pts d) ∧ dayTemps pts d ≠ [] := by
      intro d hd
      have hd' : d ∈ pts.map (fun p => dayKey p.dt) := by
        rw [← List.mem_dedup]
        exact (List.mergeSort_perm _ _).mem_iff.mp hd
      constructor
      · rw [alookup_groupByKey _ _ _ d, if_pos hd']
        rfl
      · obtain ⟨p, hp, hkp⟩ := List.mem_map.mp hd'
        intro hcon
        unfold dayTemps at hcon
        rw [List.map_eq_nil_iff] at hcon
        have hmem : p ∈ pts.filter (fun q => decide (dayKey q.dt = d)) :=
          List.mem_filter.mpr ⟨hp, by simp [hkp]⟩
        rw [hcon] at hmem
        cases hmem
    simp only [gddByDay, gddFold]
    rw [hdays, gddFold_go _ (dayTemps pts) _ hsorted hlook 0 []]
    simp only [List.nil_append, zero_add]
    rfl
  refine ⟨hgen, ?_, ?_, ?_⟩
  · rw [hgen pts7]
    norm_num [gddByDaySpec, chronoDays, dayTemps, dayKey, pts7, List.dedup,
      List.mergeSort, List.filter_cons, listMean, pyRound, pyRoundInt]
  · norm_num [totalGdd, gddFold, groupByKey, addKey, alookup, sortedKeys, gddStep,
      dayKey, pts7, List.mergeSort, List.filter_cons, listMean]
    simp
    norm_num
  · have ht : totalGdd pts7 = 15 := by
      norm_num [totalGdd, gddFold, groupByKey, addKey, alookup, sortedKeys, gddStep,
        dayKey, pts7, List.mergeSort, List.filter_cons, listMean]
      simp
      norm_num
    rw [ht]
    norm_num [estimateGrowthStage, pyInt]

/-! ## C9 (corrected) -/

lemma pointOf_now_congr (n1 n2 : ℚ) (e : Entity) (h : e.dateTime ≠ .unparseable) :
    pointOf n1 e = pointOf n2 e := by
  cases hd : e.dateTime with
  | missing => simp [pointOf, hd]
  | unparseable => exact absurd hd h
  | valid t => simp [pointOf, hd]

lemma toPoints_now_congr (n1 n2 : ℚ) (es : List Entity)
    (h : ∀ e ∈ es, e.dateTime ≠ .unparseable) :
    toPoints n1 es = toPoints n2 es := by
  unfold toPoints
  apply List.filterMap_congr
  intro e he
  exact pointOf_now_congr n1 n2 e (h e he)

def esC9 : List Entity :=
  [⟨some 20, some 50, some 25, some 0, .valid 0⟩,
   ⟨some 20, some 50, some 25, some 0, .valid 3600⟩,
   ⟨some 20, some 50, some 25, some 0, .unparseable⟩]

/-- C9 counterexample: on a window containing a present-but-unparseable
timestamp, `compute_advanced_analytics` substitutes the wall clock of the
call (`datetime.now()`), so two calls on the *same unmodified window* at
different times return different reports (here the fallback row lands on a
different calendar day, changing the GDD table): the claimed idempotence
fails. -/
theorem advanced_now_dependent_cex :
    computeAdvancedAnalytics 0 esC9 ≠ computeAdvancedAnalytics 864000 esC9 := by
  have e1 : (computeAdvancedAnalytics 0 esC9).map
      (fun r => r.growing_degree_days.daily_gdd.length) = some 1 := by
    norm_num [computeAdvancedAnalytics, esC9, toPoints, pointOf, sortPoints,
      List.mergeSort, calculateHourlyStats, groupByKey, addKey, alookup, sortedKeys,
      hourKey, dayKey, lastN, listMean, pyRound, pyRoundInt, predictiveWatering,
      currentMoisture, depletionRate, moistureValues, getWateringRecommendation,
      wateringRecAux, pyInt, heatStress, heatStressEvents, gddFold, gddStep,
      totalGdd, gddByDay, estimateGrowthStage, List.filter_cons, List.filterMap_cons,
      List.getLast?, List.head?]
    refine ⟨_, ⟨by simp, rfl⟩, ?_⟩
    simp only [if_neg (show ([20, 20, 20] : List ℚ) ≠ [] by simp)]
    norm_num [lastN]
  have e2 : (computeAdvancedAnalytics 864000 esC9).map
      (fun r => r.growing_degree_days.daily_gdd.length) = some 2 := by
    norm_num [computeAdvancedAnalytics, esC9, toPoints, pointOf, sortPoints,
      List.mergeSort, calculateHourlyStats, groupByKey, addKey, alookup, sortedKeys,
      hourKey, dayKey, lastN, listMean, pyRound, pyRoundInt, predictiveWatering,
      currentMoisture, depletionRate, moistureValues, getWateringRecommendation,
      wateringRecAux, pyInt, heatStress, heatStressEvents, gddFold, gddStep,
      totalGdd, gddByDay, estimateGrowthStage, List.filter_cons, List.filterMap_cons,
      List.getLast?, List.head?]
    refine ⟨_, ⟨by simp, rfl⟩, ?_⟩
    simp only [if_neg (show ([20, 20] : List ℚ) ≠ [] by simp)]
    norm_num [lastN]
  intro h
  rw [h] at e1
  rw [e1] at e2
  exact absurd e2 (by decide)

/-- C9 (amended): each analytics function is a pure function of its input and
never mutates the caller's list — `compute_advanced_analytics` sorts the
separately-built `data_points` list, so the caller's window comes back
unchanged — and, *provided every reading's timestamp is absent or parseable*,
its report does not depend on the wall clock, so calling it twice on an
unmodified window yields identical output.  (On a window with an unparseable
timestamp the `datetime.now()` fallback makes the report clock-dependent;
see the counterexample.) -/
theorem analytics_frame_and_determinism :
    (∀ (now1 now2 : ℚ) (es : List Entity),
      (∀ e ∈ es, e.dateTime ≠ .unparseable) →
      computeAdvancedAnalytics now1 es = computeAdvancedAnalytics now2 es) ∧
    (∀ (now : ℚ) (es : List Entity), (computeAdvancedAnalyticsSt now es).2 = es) := by
  constructor
  · intro n1 n2 es h
    simp only [computeAdvancedAnalytics, toPoints_now_congr n1 n2 es h]
  · intro now es
    rfl

def esW9 : List Entity :=
  [⟨some 20, some 50, some 25, some 0, .valid 0⟩,
   ⟨some 20, some 50, some 25, some 0, .valid 3600⟩,
   ⟨some 20, some 50, some 25, some 0, .valid 7200⟩]

theorem analytics_frame_and_determinism_w :
    computeAdvancedAnalytics 0 esW9 = computeAdvancedAnalytics 100 esW9 ∧
      (computeAdvancedAnalyticsSt 0 esW9).2 = esW9 :=
  ⟨analytics_frame_and_determinism.1 0 100 esW9 (by
      intro e he
      fin_cases he <;> simp [esW9]),
   analytics_frame_and_determinism.2 0 esW9⟩
